import Mathlib

/-!
# Verification of the Adaptive Engine Orchestrator

A shallow embedding of the chess-engine orchestrator (`ChessEngine` in
`src/lib/chessEngine.ts` and the move-quality annotator in
`TrainingLogs.tsx`).  JavaScript numbers are modelled as rationals (`ℚ`),
centipawn evaluations as integers where the source only ever handles parsed
integers, and `Math.random()` draws are passed in as explicit `ℚ`
parameters.  The line-oriented oracle protocol is modelled by a command
datatype whose constructors mirror the strings handed to `sendCommand`.
-/

namespace ChessEngineModel

/-- `EngineConfig` from `chessEngine.ts` (all fields are JS numbers). -/
structure EngineConfig where
  eloRating : ℚ
  skillLevel : ℚ
  contempt : ℚ
  moveOverhead : ℚ
  nodesPerMove : ℚ
  timePerMove : ℚ
  accuracy : ℚ
deriving DecidableEq, Repr

/-- The defaults installed by the `ChessEngine` constructor. -/
def defaultConfig : EngineConfig :=
  { eloRating := 1500
    skillLevel := 10
    contempt := 0
    moveOverhead := 100
    nodesPerMove := 1000000
    timePerMove := 1000
    accuracy := 85 }

/-- A `Partial<EngineConfig>`: every field optional. -/
structure PartialConfig where
  eloRating : Option ℚ := none
  skillLevel : Option ℚ := none
  contempt : Option ℚ := none
  moveOverhead : Option ℚ := none
  nodesPerMove : Option ℚ := none
  timePerMove : Option ℚ := none
  accuracy : Option ℚ := none
deriving DecidableEq, Repr

/-- The JS spread `{ ...this.config, ...newConfig }`: a present field of the
patch overrides the old value. -/
def mergeConfig (old : EngineConfig) (patch : PartialConfig) : EngineConfig :=
  { eloRating := patch.eloRating.getD old.eloRating
    skillLevel := patch.skillLevel.getD old.skillLevel
    contempt := patch.contempt.getD old.contempt
    moveOverhead := patch.moveOverhead.getD old.moveOverhead
    nodesPerMove := patch.nodesPerMove.getD old.nodesPerMove
    timePerMove := patch.timePerMove.getD old.timePerMove
    accuracy := patch.accuracy.getD old.accuracy }

/-- `ChessEngine.calculateSkillLevel`: the piecewise ELO → skill-level table. -/
def calculateSkillLevel (elo : ℚ) : ℚ :=
  if elo < 800 then 0
  else if elo < 1000 then 2
  else if elo < 1200 then 4
  else if elo < 1400 then 6
  else if elo < 1600 then 8
  else if elo < 1800 then 10
  else if elo < 2000 then 12
  else if elo < 2200 then 15
  else if elo < 2400 then 18
  else 20

/-- One command sent to the search oracle, mirroring the strings passed to
`sendCommand` (`setoption name <name> value <v>`, `isready`, `uci`). -/
inductive Cmd where
  | setOption (name : String) (value : ℚ)
  | isready
  | uci
deriving DecidableEq, Repr

/-- `ChessEngine.configureEngine`: the exact command sequence it sends.
Note the source sends `Skill Level` twice: first the caller-supplied
`config.skillLevel`, then the ELO-derived `calculateSkillLevel` value. -/
def configureCommands (cfg : EngineConfig) : List Cmd :=
  [ .setOption "Skill Level" cfg.skillLevel
  , .setOption "Contempt" cfg.contempt
  , .setOption "Move Overhead" cfg.moveOverhead
  , .setOption "Skill Level" (calculateSkillLevel cfg.eloRating)
  , .isready ]

/-- `ChessEngine.updateConfig`: merge the partial config, then re-run
`configureEngine`. Returns the new config and the commands sent. -/
def updateConfig (old : EngineConfig) (patch : PartialConfig) :
    EngineConfig × List Cmd :=
  let merged := mergeConfig old patch
  (merged, configureCommands merged)

/-- The values carried by the `Skill Level` option commands in a command
list, in order of sending. -/
def skillLevelValues (cmds : List Cmd) : List ℚ :=
  cmds.filterMap fun c =>
    match c with
    | .setOption n v => if n = "Skill Level" then some v else none
    | _ => none

/-- `ChessEngine.selectSuboptimalMove`: filter out the best move; if nothing
remains fall back to the best move; otherwise index into the alternatives
with `Math.floor(random * k)` where `k` is `min 3 / min 5 / all` by ELO tier. -/
def selectSuboptimalMove (cfg : EngineConfig) (bestMove : String)
    (legalMoves : List String) (random : ℚ) : String :=
  let alternativeMoves := legalMoves.filter fun m => m ≠ bestMove
  if alternativeMoves = [] then bestMove
  else
    let eloBasedSelection := cfg.eloRating / 2500
    if eloBasedSelection > 3/5 then
      alternativeMoves.getD (⌊random * (min 3 alternativeMoves.length : ℚ)⌋).toNat bestMove
    else if eloBasedSelection > 3/10 then
      alternativeMoves.getD (⌊random * (min 5 alternativeMoves.length : ℚ)⌋).toNat bestMove
    else
      alternativeMoves.getD (⌊random * (alternativeMoves.length : ℚ)⌋).toNat bestMove

/-- `ChessEngine.applyHumanLikeInaccuracy`.  `random` is the draw compared
against the accuracy product; `randomSelect` is the draw consumed by
`selectSuboptimalMove` when a substitute is chosen. -/
def applyHumanLikeInaccuracy (cfg : EngineConfig) (bestMove : String)
    (legalMoves : List String) (random randomSelect : ℚ) : String :=
  if cfg.accuracy ≥ 100 then bestMove
  else
    let accuracyFactor := cfg.accuracy / 100
    let eloFactor := min (cfg.eloRating / 2500) 1
    let finalAccuracy := accuracyFactor * eloFactor
    if random < finalAccuracy then bestMove
    else selectSuboptimalMove cfg bestMove legalMoves randomSelect

/-- The play-the-best probability the source computes for `accuracy < 100`:
`(accuracy/100) * min(eloRating/2500, 1)`. -/
def playBestProb (cfg : EngineConfig) : ℚ :=
  (cfg.accuracy / 100) * min (cfg.eloRating / 2500) 1

/-- The boolean decision inside `applyHumanLikeInaccuracy`: substitute
exactly when `accuracy < 100` and the draw fails `random < finalAccuracy`. -/
def shouldSubstitute (cfg : EngineConfig) (random : ℚ) : Bool :=
  if cfg.accuracy ≥ 100 then false
  else !(random < playBestProb cfg)

/-- `isDeliberate` as computed in `getBestMove`: `finalMove !== bestMove`. -/
def engineMoveIsDeliberate (finalMove bestMove : String) : Bool :=
  finalMove ≠ bestMove

/-- `ChessEngine.calculateMoveDelay`.  `random` is the raw `Math.random()`
draw in `[0, 1)`; the source turns it into `randomFactor = 0.5 + random*0.5`
and scales by `eloFactor = 1 - eloRating/2500` (no clamping). -/
def calculateMoveDelay (cfg : EngineConfig) (random : ℚ) : ℚ :=
  let baseDelay : ℚ := 500
  let maxDelay : ℚ := 3000
  let eloFactor := 1 - cfg.eloRating / 2500
  let randomFactor := 1/2 + random * (1/2)
  baseDelay + (maxDelay - baseDelay) * eloFactor * randomFactor

/-- The confidence buckets of `evaluateConfidence`. -/
inductive Confidence where
  | best
  | good
  | questionable
  | blunder
deriving DecidableEq, Repr

/-- `ChessEngine.evaluateConfidence`: buckets on `Math.abs(score)` with
thresholds `> 500`, `> 200`, `> -100`. -/
def evaluateConfidence (score : ℤ) (depth : ℕ) : Confidence :=
  let absScore := |score|
  if absScore > 500 then .best
  else if absScore > 200 then .good
  else if absScore > -100 then .questionable
  else .blunder

/-- Split a character list into whitespace-separated words (the token view
of a protocol line, matching how the regexes see token boundaries). -/
def splitWords : List Char → List (List Char)
  | [] => [[]]
  | c :: cs =>
    if c = ' ' then [] :: splitWords cs
    else
      match splitWords cs with
      | [] => [[c]]
      | w :: ws => (c :: w) :: ws

/-- The tokens of a protocol line: its whitespace-split words, empty words
dropped. -/
def tokensOf (message : String) : List (List Char) :=
  (splitWords message.data).filter fun w => w ≠ []

/-- Parse a nonempty all-digit character list (the regex class `\d+`). -/
def parseDigits : List Char → Option ℕ
  | [] => none
  | [c] => if c.isDigit then some (c.toNat - 48) else none
  | c :: cs =>
    if c.isDigit then
      (parseDigits cs).map fun n => (c.toNat - 48) * 10 ^ cs.length + n
    else none

/-- Parse a token matching the regex `-?\d+` as an integer. -/
def parseIntToken : List Char → Option ℤ
  | '-' :: cs => (parseDigits cs).map fun n => -(n : ℤ)
  | cs => (parseDigits cs).map fun n => (n : ℤ)

/-- The token scan behind the regex `/score cp (-?\d+)/` in `getBestMove`'s
message handler: find `score` followed by `cp` followed by an integer token.
A `score` not followed by a parsable `cp <int>` does not stop the scan. -/
def findCpScore : List (List Char) → Option ℤ
  | [] => none
  | w :: rest =>
    if w = "score".data then
      match rest with
      | cp :: n :: _ =>
        if cp = "cp".data then
          match parseIntToken n with
          | some v => some v
          | none => findCpScore rest
        else findCpScore rest
      | _ => findCpScore rest
    else findCpScore rest

/-- The token scan behind the regex `/depth (\d+)/`: find a `depth` token
followed by a natural-number token. -/
def findDepth : List (List Char) → Option ℕ
  | [] => none
  | w :: rest =>
    if w = "depth".data then
      match rest with
      | n :: _ =>
        match parseDigits n with
        | some v => some v
        | none => findDepth rest
      | _ => findDepth rest
    else findDepth rest

/-- The `info depth` branch of `getBestMove`'s message handler: on a line
starting with `info depth`, update `depth` from a `depth` match and
`evaluation` from a `score cp` match; a field with no match keeps its old
value.  Mate lines (`score mate N`) carry no `score cp` match, so the
evaluation is left unchanged. -/
def handleInfoMessage (message : String) (evaluation : ℤ) (depth : ℕ) :
    ℤ × ℕ :=
  if ("info depth".data).isPrefixOf message.data then
    let tokens := tokensOf message
    ((findCpScore tokens).getD evaluation, (findDepth tokens).getD depth)
  else (evaluation, depth)

/-- The request-routing state of a `ChessEngine`: which pending request (if
any) currently owns `this.stockfish.onmessage`.  A request's promise can only
ever resolve while its handler is installed. -/
structure EngineState where
  onmessageOwner : Option ℕ
deriving DecidableEq, Repr

/-- What `getBestMove` does synchronously when called (after the readiness
wait): with no legal moves it resolves `null` at once; otherwise it installs
its own message handler — unconditionally overwriting whatever handler a
still-pending previous request had installed — and starts a search. -/
inductive StartOutcome where
  | resolvedNull
  | searching
deriving DecidableEq, Repr

/-- The synchronous prefix of `ChessEngine.getBestMove` (lines 118-182):
note that no in-flight flag is consulted and no error is ever raised. -/
def getBestMoveStart (s : EngineState) (reqId : ℕ) (legalMoves : List String) :
    StartOutcome × EngineState :=
  if legalMoves.isEmpty then (.resolvedNull, s)
  else (.searching, { onmessageOwner := some reqId })

/-- The seven quality tiers used by `analyzeMoveQuality` in
`TrainingLogs.tsx`. -/
inductive Quality where
  | brilliant
  | excellent
  | good
  | move
  | inaccuracy
  | mistake
  | blunder
deriving DecidableEq, Repr

/-- `analyzeMoveQuality` from `TrainingLogs.tsx`: delta from the mover's
perspective, then descending thresholds. Returns the tier and the fixed
explanation string. -/
def analyzeMoveQuality (prevEval currentEval : ℤ) (isPlayerMove : Bool) :
    Quality × String :=
  let evalChange := if isPlayerMove then currentEval - prevEval else prevEval - currentEval
  if evalChange > 200 then (.brilliant, "Brilliant move! Significant advantage gained.")
  else if evalChange > 100 then (.excellent, "Excellent move! Clear improvement.")
  else if evalChange > 0 then (.good, "Good move, maintaining or improving position.")
  else if evalChange > -50 then (.move, "Reasonable move.")
  else if evalChange > -100 then (.inaccuracy, "Inaccuracy. A better move was available.")
  else if evalChange > -200 then (.mistake, "Mistake! This loses some advantage.")
  else (.blunder, "Blunder! This significantly worsens the position.")

/-! ## Helper lemmas -/

/-- `Math.floor(random * k)` lands strictly below `k` for a draw in `[0, 1)`. -/
lemma floor_mul_toNat_lt (r : ℚ) (k : ℕ) (h0 : 0 ≤ r) (h1 : r < 1)
    (hk : 0 < k) : (⌊r * (k : ℚ)⌋).toNat < k := by
  have hknn : (0 : ℚ) < (k : ℚ) := by exact_mod_cast hk
  have hlt : r * (k : ℚ) < (k : ℚ) := by
    calc r * (k : ℚ) < 1 * (k : ℚ) := by exact mul_lt_mul_of_pos_right h1 hknn
    _ = (k : ℚ) := one_mul _
  have hfl : ⌊r * (k : ℚ)⌋ < (k : ℤ) := by
    rw [Int.floor_lt]
    exact_mod_cast hlt
  have hfl0 : 0 ≤ ⌊r * (k : ℚ)⌋ := Int.floor_nonneg.mpr (mul_nonneg h0 hknn.le)
  omega

/-- The draw `i / k` selects exactly index `i`. -/
lemma floor_div_mul_toNat (i k : ℕ) (h : i < k) :
    (⌊((i : ℚ) / (k : ℚ)) * (k : ℚ)⌋).toNat = i ∧
    0 ≤ (i : ℚ) / (k : ℚ) ∧ (i : ℚ) / (k : ℚ) < 1 := by
  have hk : (0 : ℚ) < (k : ℚ) := by exact_mod_cast Nat.zero_lt_of_lt h
  have hkne : (k : ℚ) ≠ 0 := ne_of_gt hk
  refine ⟨?_, ?_, ?_⟩
  · rw [div_mul_cancel₀ _ hkne]
    simp
  · positivity
  · rw [div_lt_one hk]
    exact_mod_cast h

/-- An element read at an index below both `t` and the length lies in
`l.take t`. -/
lemma getD_mem_take (l : List String) (i t : ℕ) (d : String)
    (hit : i < t) (hil : i < l.length) : l.getD i d ∈ l.take t := by
  have hlen : i < (l.take t).length := by
    simp only [List.length_take]
    omega
  have heq : (l.take t).getD i d = l.getD i d := by
    rw [List.getD_eq_getElem _ _ hlen, List.getD_eq_getElem _ _ hil]
    simp [List.getElem_take]
  rw [← heq, List.getD_eq_getElem _ _ hlen]
  exact List.getElem_mem hlen

/-- `Math.min(3, n)` over JS numbers agrees with the ℕ-level `min`. -/
lemma min3_cast (n : ℕ) : (3 : ℚ) ⊓ (n : ℚ) = ((min 3 n : ℕ) : ℚ) := by
  rw [Nat.cast_min]
  norm_num

/-- `Math.min(5, n)` over JS numbers agrees with the ℕ-level `min`. -/
lemma min5_cast (n : ℕ) : (5 : ℚ) ⊓ (n : ℚ) = ((min 5 n : ℕ) : ℚ) := by
  rw [Nat.cast_min]
  norm_num

/-- An element read at an index below the length is a member. -/
lemma getD_mem_self (l : List String) (i : ℕ) (d : String)
    (hil : i < l.length) : l.getD i d ∈ l := by
  rw [List.getD_eq_getElem _ _ hil]
  exact List.getElem_mem hil

/-! ## Claim theorems -/

/-- C3: with `accuracy = 100`, `applyHumanLikeInaccuracy` never substitutes:
for every rating and every random draw it returns the oracle's literal best
move, and the `isDeliberate` flag computed from it is `false`. -/
theorem accuracy100_plays_best (cfg : EngineConfig) (bestMove : String)
    (legalMoves : List String) (random randomSelect : ℚ)
    (h : cfg.accuracy = 100) :
    applyHumanLikeInaccuracy cfg bestMove legalMoves random randomSelect = bestMove ∧
    engineMoveIsDeliberate
      (applyHumanLikeInaccuracy cfg bestMove legalMoves random randomSelect)
      bestMove = false := by
  have h1 : applyHumanLikeInaccuracy cfg bestMove legalMoves random randomSelect = bestMove := by
    unfold applyHumanLikeInaccuracy
    rw [if_pos (by rw [h])]
  refine ⟨h1, ?_⟩
  simp [engineMoveIsDeliberate, h1]

/-- Witness for C3: the spec scenario rating = 2400, accuracy = 100, legal
moves `[e2e4, d2d4, g1f3]`, oracle best `e2e4`. -/
theorem accuracy100_plays_best_witness :
    applyHumanLikeInaccuracy
        { defaultConfig with eloRating := 2400, accuracy := 100 }
        "e2e4" ["e2e4", "d2d4", "g1f3"] (37/100) (1/3) = "e2e4" ∧
    engineMoveIsDeliberate
      (applyHumanLikeInaccuracy
        { defaultConfig with eloRating := 2400, accuracy := 100 }
        "e2e4" ["e2e4", "d2d4", "g1f3"] (37/100) (1/3))
      "e2e4" = false :=
  accuracy100_plays_best
    { defaultConfig with eloRating := 2400, accuracy := 100 }
    "e2e4" ["e2e4", "d2d4", "g1f3"] (37/100) (1/3) rfl

/-- C9: `evaluateConfidence` buckets on `|score|`, so the `blunder` branch
(`|score| ≤ -100`) is unreachable: no score and depth ever produce
`blunder`, and whenever `|score| ≤ 200` the `questionable` branch wins. -/
theorem evaluateConfidence_never_blunder (score : ℤ) (depth : ℕ) :
    evaluateConfidence score depth ≠ Confidence.blunder ∧
    (|score| ≤ 200 → evaluateConfidence score depth = Confidence.questionable) := by
  have h0 : (0 : ℤ) ≤ |score| := abs_nonneg score
  unfold evaluateConfidence
  dsimp only
  constructor
  · split_ifs <;> first | (exfalso; linarith) | simp
  · intro h
    split_ifs <;> first | rfl | (exfalso; linarith)

/-- Witness for C9 at score = -150, depth = 7. -/
theorem evaluateConfidence_never_blunder_witness :
    evaluateConfidence (-150) 7 ≠ Confidence.blunder ∧
    evaluateConfidence (-150) 7 = Confidence.questionable :=
  ⟨(evaluateConfidence_never_blunder (-150) 7).1,
   (evaluateConfidence_never_blunder (-150) 7).2 (by decide)⟩

/-- C5: `analyzeMoveQuality` computes the delta from the mover's
perspective and partitions ℤ into exactly the seven tiers, with the stated
boundary behavior (`delta = 200` is excellent, `delta = -200` is blunder)
and the spec scenario `before = 50, after = -180` classifying as blunder. -/
theorem analyzeMoveQuality_partitions :
    (∀ (prevEval currentEval delta : ℤ) (isPlayerMove : Bool),
      delta = (if isPlayerMove then currentEval - prevEval else prevEval - currentEval) →
      ((analyzeMoveQuality prevEval currentEval isPlayerMove).1 = Quality.brilliant ↔
        200 < delta) ∧
      ((analyzeMoveQuality prevEval currentEval isPlayerMove).1 = Quality.excellent ↔
        100 < delta ∧ delta ≤ 200) ∧
      ((analyzeMoveQuality prevEval currentEval isPlayerMove).1 = Quality.good ↔
        0 < delta ∧ delta ≤ 100) ∧
      ((analyzeMoveQuality prevEval currentEval isPlayerMove).1 = Quality.move ↔
        -50 < delta ∧ delta ≤ 0) ∧
      ((analyzeMoveQuality prevEval currentEval isPlayerMove).1 = Quality.inaccuracy ↔
        -100 < delta ∧ delta ≤ -50) ∧
      ((analyzeMoveQuality prevEval currentEval isPlayerMove).1 = Quality.mistake ↔
        -200 < delta ∧ delta ≤ -100) ∧
      ((analyzeMoveQuality prevEval currentEval isPlayerMove).1 = Quality.blunder ↔
        delta ≤ -200)) ∧
    (analyzeMoveQuality 0 200 true).1 = Quality.excellent ∧
    (analyzeMoveQuality 0 (-200) true).1 = Quality.blunder ∧
    (analyzeMoveQuality 50 (-180) true).1 = Quality.blunder := by
  refine ⟨?_, by decide, by decide, by decide⟩
  intro prevEval currentEval delta isPlayerMove hdelta
  unfold analyzeMoveQuality
  dsimp only
  subst hdelta
  split_ifs <;> simp_all <;> omega

/-- Witness for C5: the spec scenario `before = 50, after = -180`, mover to
optimize, gives `delta = -230` and classification blunder. -/
theorem analyzeMoveQuality_partitions_witness :
    (analyzeMoveQuality 50 (-180) true).1 = Quality.blunder ↔ (-230 : ℤ) ≤ -200 :=
  (analyzeMoveQuality_partitions.1 50 (-180) (-230) true (by decide)).2.2.2.2.2.2

/-- Band decomposition of the skill-level table: each rating falls under
one threshold with the corresponding value. -/
lemma skillLevel_cases (r : ℚ) :
    (r < 800 ∧ calculateSkillLevel r = 0) ∨
    (r < 1000 ∧ calculateSkillLevel r = 2) ∨
    (r < 1200 ∧ calculateSkillLevel r = 4) ∨
    (r < 1400 ∧ calculateSkillLevel r = 6) ∨
    (r < 1600 ∧ calculateSkillLevel r = 8) ∨
    (r < 1800 ∧ calculateSkillLevel r = 10) ∨
    (r < 2000 ∧ calculateSkillLevel r = 12) ∨
    (r < 2200 ∧ calculateSkillLevel r = 15) ∨
    (r < 2400 ∧ calculateSkillLevel r = 18) ∨
    calculateSkillLevel r = 20 := by
  unfold calculateSkillLevel
  split_ifs with h1 h2 h3 h4 h5 h6 h7 h8 h9
  · exact Or.inl ⟨h1, rfl⟩
  · exact Or.inr (Or.inl ⟨h2, rfl⟩)
  · exact Or.inr (Or.inr (Or.inl ⟨h3, rfl⟩))
  · exact Or.inr (Or.inr (Or.inr (Or.inl ⟨h4, rfl⟩)))
  · exact Or.inr (Or.inr (Or.inr (Or.inr (Or.inl ⟨h5, rfl⟩))))
  · exact Or.inr (Or.inr (Or.inr (Or.inr (Or.inr (Or.inl ⟨h6, rfl⟩)))))
  · exact Or.inr (Or.inr (Or.inr (Or.inr (Or.inr (Or.inr (Or.inl ⟨h7, rfl⟩))))))
  · exact Or.inr (Or.inr (Or.inr (Or.inr (Or.inr (Or.inr (Or.inr
      (Or.inl ⟨h8, rfl⟩)))))))
  · exact Or.inr (Or.inr (Or.inr (Or.inr (Or.inr (Or.inr (Or.inr (Or.inr
      (Or.inl ⟨h9, rfl⟩))))))))
  · exact Or.inr (Or.inr (Or.inr (Or.inr (Or.inr (Or.inr (Or.inr (Or.inr
      (Or.inr rfl))))))))

/-- Upper-bound ladder for the skill-level table: a rating below a
threshold is capped at that band's value, and the value always lies in
`[0, 20]`. -/
lemma skillLevel_upper (r : ℚ) :
    (r < 800 → calculateSkillLevel r ≤ 0) ∧
    (r < 1000 → calculateSkillLevel r ≤ 2) ∧
    (r < 1200 → calculateSkillLevel r ≤ 4) ∧
    (r < 1400 → calculateSkillLevel r ≤ 6) ∧
    (r < 1600 → calculateSkillLevel r ≤ 8) ∧
    (r < 1800 → calculateSkillLevel r ≤ 10) ∧
    (r < 2000 → calculateSkillLevel r ≤ 12) ∧
    (r < 2200 → calculateSkillLevel r ≤ 15) ∧
    (r < 2400 → calculateSkillLevel r ≤ 18) ∧
    (0 ≤ calculateSkillLevel r ∧ calculateSkillLevel r ≤ 20) := by
  unfold calculateSkillLevel
  split_ifs with h1 h2 h3 h4 h5 h6 h7 h8 h9 <;>
    exact ⟨fun h => by linarith, fun h => by linarith, fun h => by linarith,
      fun h => by linarith, fun h => by linarith, fun h => by linarith,
      fun h => by linarith, fun h => by linarith, fun h => by linarith,
      by norm_num⟩

/-- C6: `calculateSkillLevel` is monotone, bounded in `[0, 20]`, maps every
rating below the lowest band (800) to 0 and every rating at or above the
highest band (2400) to 20. -/
theorem calculateSkillLevel_monotone_bounded :
    (∀ r1 r2 : ℚ, r1 < r2 → calculateSkillLevel r1 ≤ calculateSkillLevel r2) ∧
    (∀ r : ℚ, 0 ≤ calculateSkillLevel r ∧ calculateSkillLevel r ≤ 20) ∧
    (∀ r : ℚ, r < 800 → calculateSkillLevel r = 0) ∧
    (∀ r : ℚ, 2400 ≤ r → calculateSkillLevel r = 20) := by
  refine ⟨?_, fun r => (skillLevel_upper r).2.2.2.2.2.2.2.2.2, ?_, ?_⟩
  · intro r1 r2 h
    have hu := skillLevel_upper r1
    rcases skillLevel_cases r2 with ⟨hb, he⟩ | ⟨hb, he⟩ | ⟨hb, he⟩ | ⟨hb, he⟩ |
      ⟨hb, he⟩ | ⟨hb, he⟩ | ⟨hb, he⟩ | ⟨hb, he⟩ | ⟨hb, he⟩ | he <;> rw [he]
    · exact hu.1 (by linarith)
    · exact hu.2.1 (by linarith)
    · exact hu.2.2.1 (by linarith)
    · exact hu.2.2.2.1 (by linarith)
    · exact hu.2.2.2.2.1 (by linarith)
    · exact hu.2.2.2.2.2.1 (by linarith)
    · exact hu.2.2.2.2.2.2.1 (by linarith)
    · exact hu.2.2.2.2.2.2.2.1 (by linarith)
    · exact hu.2.2.2.2.2.2.2.2.1 (by linarith)
    · exact hu.2.2.2.2.2.2.2.2.2.2
  · intro r h
    unfold calculateSkillLevel
    rw [if_pos h]
  · intro r h
    rcases skillLevel_cases r with ⟨hb, _⟩ | ⟨hb, _⟩ | ⟨hb, _⟩ | ⟨hb, _⟩ |
      ⟨hb, _⟩ | ⟨hb, _⟩ | ⟨hb, _⟩ | ⟨hb, _⟩ | ⟨hb, _⟩ | he
    all_goals first | (exfalso; linarith) | exact he

/-- Witness for C6 at the concrete ratings 700 < 2450. -/
theorem calculateSkillLevel_monotone_bounded_witness :
    calculateSkillLevel 700 ≤ calculateSkillLevel 2450 ∧
    calculateSkillLevel 700 = 0 ∧ calculateSkillLevel 2450 = 20 :=
  ⟨calculateSkillLevel_monotone_bounded.1 700 2450 (by norm_num),
   calculateSkillLevel_monotone_bounded.2.2.1 700 (by norm_num),
   calculateSkillLevel_monotone_bounded.2.2.2 2450 (by norm_num)⟩

/-- C10: in the handshake (`configureEngine`) and after every
`updateConfig`, the `Skill Level` option is sent twice — first the
caller-supplied `skillLevel`, then `calculateSkillLevel eloRating` — so the
last (effective) skill-level command always carries the rating-derived
value and depends only on `eloRating`, never on the `skillLevel` field. -/
theorem effective_skill_from_rating :
    (∀ cfg : EngineConfig,
      skillLevelValues (configureCommands cfg) =
        [cfg.skillLevel, calculateSkillLevel cfg.eloRating]) ∧
    (∀ (old : EngineConfig) (patch : PartialConfig),
      (skillLevelValues (updateConfig old patch).2).getLast? =
        some (calculateSkillLevel (mergeConfig old patch).eloRating)) ∧
    (∀ cfg1 cfg2 : EngineConfig, cfg1.eloRating = cfg2.eloRating →
      (skillLevelValues (configureCommands cfg1)).getLast? =
        (skillLevelValues (configureCommands cfg2)).getLast?) := by
  have hvals : ∀ cfg : EngineConfig,
      skillLevelValues (configureCommands cfg) =
        [cfg.skillLevel, calculateSkillLevel cfg.eloRating] := by
    intro cfg
    simp [skillLevelValues, configureCommands]
  refine ⟨hvals, ?_, ?_⟩
  · intro old patch
    rw [show (updateConfig old patch).2 = configureCommands (mergeConfig old patch) from rfl]
    rw [hvals]
    rfl
  · intro cfg1 cfg2 h
    rw [hvals, hvals, h]
    rfl

/-- C7: `selectSuboptimalMove` removes the best move from the legal list;
with no alternatives left it falls back to the best move; otherwise, with
`rating/2500 > 0.6` the uniform draw is confined to the first 3 remaining
moves, with `rating/2500 > 0.3` to the first 5, and below that it ranges
over all remaining legal moves — and in each tier every index of the
allowed range is reached by some draw in `[0, 1)`. -/
theorem selectSuboptimalMove_tiers (cfg : EngineConfig) (bestMove : String)
    (legalMoves alts : List String) (random : ℚ)
    (halts : alts = legalMoves.filter fun m => m ≠ bestMove)
    (h0 : 0 ≤ random) (h1 : random < 1) :
    (alts = [] → selectSuboptimalMove cfg bestMove legalMoves random = bestMove) ∧
    (alts ≠ [] → selectSuboptimalMove cfg bestMove legalMoves random ∈ alts) ∧
    (alts ≠ [] → cfg.eloRating / 2500 > 3/5 →
      selectSuboptimalMove cfg bestMove legalMoves random ∈ alts.take 3) ∧
    (alts ≠ [] → ¬(cfg.eloRating / 2500 > 3/5) → cfg.eloRating / 2500 > 3/10 →
      selectSuboptimalMove cfg bestMove legalMoves random ∈ alts.take 5) ∧
    (alts ≠ [] → cfg.eloRating / 2500 > 3/5 →
      ∀ i : ℕ, i < min 3 alts.length →
        ∃ r : ℚ, 0 ≤ r ∧ r < 1 ∧
          selectSuboptimalMove cfg bestMove legalMoves r = alts.getD i bestMove) ∧
    (alts ≠ [] → ¬(cfg.eloRating / 2500 > 3/5) → cfg.eloRating / 2500 > 3/10 →
      ∀ i : ℕ, i < min 5 alts.length →
        ∃ r : ℚ, 0 ≤ r ∧ r < 1 ∧
          selectSuboptimalMove cfg bestMove legalMoves r = alts.getD i bestMove) ∧
    (alts ≠ [] → ¬(cfg.eloRating / 2500 > 3/5) → ¬(cfg.eloRating / 2500 > 3/10) →
      ∀ i : ℕ, i < alts.length →
        ∃ r : ℚ, 0 ≤ r ∧ r < 1 ∧
          selectSuboptimalMove cfg bestMove legalMoves r = alts.getD i bestMove) := by
  have hunf : ∀ r : ℚ, selectSuboptimalMove cfg bestMove legalMoves r =
      if alts = [] then bestMove
      else if cfg.eloRating / 2500 > 3/5 then
        alts.getD (⌊r * ((min 3 alts.length : ℕ) : ℚ)⌋).toNat bestMove
      else if cfg.eloRating / 2500 > 3/10 then
        alts.getD (⌊r * ((min 5 alts.length : ℕ) : ℚ)⌋).toNat bestMove
      else
        alts.getD (⌊r * (alts.length : ℚ)⌋).toNat bestMove := by
    intro r
    unfold selectSuboptimalMove
    dsimp only
    rw [← halts, min3_cast, min5_cast]
  refine ⟨?_, ?_, ?_, ?_, ?_, ?_, ?_⟩
  · intro hnil
    rw [hunf, if_pos hnil]
  · intro hne
    have hlen : 0 < alts.length := List.length_pos.mpr hne
    rw [hunf, if_neg hne]
    split_ifs with ht1 ht2
    · have hk : 0 < min 3 alts.length := by omega
      have hidx := floor_mul_toNat_lt random (min 3 alts.length) h0 h1 hk
      exact getD_mem_self _ _ _ (by omega)
    · have hk : 0 < min 5 alts.length := by omega
      have hidx := floor_mul_toNat_lt random (min 5 alts.length) h0 h1 hk
      exact getD_mem_self _ _ _ (by omega)
    · have hidx := floor_mul_toNat_lt random alts.length h0 h1 hlen
      exact getD_mem_self _ _ _ hidx
  · intro hne ht1
    have hlen : 0 < alts.length := List.length_pos.mpr hne
    have hk : 0 < min 3 alts.length := by omega
    have hidx := floor_mul_toNat_lt random (min 3 alts.length) h0 h1 hk
    rw [hunf, if_neg hne, if_pos ht1]
    exact getD_mem_take _ _ _ _ (by omega) (by omega)
  · intro hne ht1 ht2
    have hlen : 0 < alts.length := List.length_pos.mpr hne
    have hk : 0 < min 5 alts.length := by omega
    have hidx := floor_mul_toNat_lt random (min 5 alts.length) h0 h1 hk
    rw [hunf, if_neg hne, if_neg ht1, if_pos ht2]
    exact getD_mem_take _ _ _ _ (by omega) (by omega)
  · intro hne ht1 i hi
    obtain ⟨hfl, hr0, hr1⟩ := floor_div_mul_toNat i (min 3 alts.length) hi
    refine ⟨(i : ℚ) / (min 3 alts.length : ℕ), hr0, hr1, ?_⟩
    rw [hunf, if_neg hne, if_pos ht1, hfl]
  · intro hne ht1 ht2 i hi
    obtain ⟨hfl, hr0, hr1⟩ := floor_div_mul_toNat i (min 5 alts.length) hi
    refine ⟨(i : ℚ) / (min 5 alts.length : ℕ), hr0, hr1, ?_⟩
    rw [hunf, if_neg hne, if_neg ht1, if_pos ht2, hfl]
  · intro hne ht1 ht2 i hi
    obtain ⟨hfl, hr0, hr1⟩ := floor_div_mul_toNat i alts.length hi
    refine ⟨(i : ℚ) / (alts.length : ℕ), hr0, hr1, ?_⟩
    rw [hunf, if_neg hne, if_neg ht1, if_neg ht2, hfl]

/-- Witness for C7: rating 2000 (high tier, 2000/2500 = 0.8 > 0.6), legal
moves `[e2e4, a2a3, b2b3, c2c3, d2d4]`, best `e2e4`, draw 9/10: the chosen
substitute lies among the first 3 alternatives. -/
theorem selectSuboptimalMove_tiers_witness :
    selectSuboptimalMove { defaultConfig with eloRating := 2000 } "e2e4"
        ["e2e4", "a2a3", "b2b3", "c2c3", "d2d4"] (9/10) ∈
      (["e2e4", "a2a3", "b2b3", "c2c3", "d2d4"].filter
        fun m => m ≠ "e2e4").take 3 :=
  (selectSuboptimalMove_tiers { defaultConfig with eloRating := 2000 } "e2e4"
      ["e2e4", "a2a3", "b2b3", "c2c3", "d2d4"]
      (["e2e4", "a2a3", "b2b3", "c2c3", "d2d4"].filter fun m => m ≠ "e2e4")
      (9/10) rfl (by norm_num) (by norm_num)).2.2.1
    (by decide) (by norm_num [defaultConfig])

/-- Witness for C10: two configs sharing a rating (1500) but with opposite
caller-supplied skill levels (3 vs 17) send the same last skill command. -/
theorem effective_skill_from_rating_witness :
    (skillLevelValues (configureCommands { defaultConfig with skillLevel := 3 })).getLast? =
    (skillLevelValues (configureCommands { defaultConfig with skillLevel := 17 })).getLast? :=
  effective_skill_from_rating.2.2
    { defaultConfig with skillLevel := 3 }
    { defaultConfig with skillLevel := 17 } rfl

/-- C4 (amended): for `accuracy < 100` the code substitutes exactly when
the draw is greater than **or equal to** the play-the-best probability
`(accuracy/100) * min(rating/2500, 1)` (the source test is
`randomFactor < finalAccuracy` for playing the best move); with rating 700
and accuracy 65 that probability is 91/500 = 0.182, so the per-draw
substitution probability for a uniform draw is 1 - 0.182 = 0.818. -/
theorem substitution_iff_draw_ge (cfg : EngineConfig) (bestMove : String)
    (legalMoves : List String) (random randomSelect : ℚ)
    (h : cfg.accuracy < 100) :
    (shouldSubstitute cfg random = true ↔ playBestProb cfg ≤ random) ∧
    applyHumanLikeInaccuracy cfg bestMove legalMoves random randomSelect =
      (if playBestProb cfg ≤ random then
        selectSuboptimalMove cfg bestMove legalMoves randomSelect
      else bestMove) ∧
    playBestProb { defaultConfig with eloRating := 700, accuracy := 65 } = 91/500 := by
  have hacc : ¬cfg.accuracy ≥ 100 := not_le.mpr h
  refine ⟨?_, ?_, ?_⟩
  · unfold shouldSubstitute
    rw [if_neg hacc]
    simp [not_lt]
  · unfold applyHumanLikeInaccuracy
    rw [if_neg hacc]
    dsimp only
    have hfold : cfg.accuracy / 100 * min (cfg.eloRating / 2500) 1 = playBestProb cfg := rfl
    rw [hfold]
    rcases le_or_lt (playBestProb cfg) random with hge | hlt
    · rw [if_neg (not_lt.mpr hge), if_pos hge]
    · rw [if_pos hlt, if_neg (not_le.mpr hlt)]
  · unfold playBestProb
    norm_num [defaultConfig, min_def]

/-- Witness for C4's amended claim at rating 700, accuracy 65, draw 1/2. -/
theorem substitution_iff_draw_ge_witness :
    (shouldSubstitute { defaultConfig with eloRating := 700, accuracy := 65 } (1/2) = true ↔
      playBestProb { defaultConfig with eloRating := 700, accuracy := 65 } ≤ 1/2) ∧
    applyHumanLikeInaccuracy { defaultConfig with eloRating := 700, accuracy := 65 }
        "e2e4" ["e2e4", "d2d4"] (1/2) 0 =
      (if playBestProb { defaultConfig with eloRating := 700, accuracy := 65 } ≤ 1/2 then
        selectSuboptimalMove { defaultConfig with eloRating := 700, accuracy := 65 }
          "e2e4" ["e2e4", "d2d4"] 0
      else "e2e4") ∧
    playBestProb { defaultConfig with eloRating := 700, accuracy := 65 } = 91/500 :=
  substitution_iff_draw_ge { defaultConfig with eloRating := 700, accuracy := 65 }
    "e2e4" ["e2e4", "d2d4"] (1/2) 0 (by norm_num [defaultConfig])

/-- Counterexample to C4 as stated: at rating 2500, accuracy 50, the
play-the-best probability is exactly 1/2; the draw 1/2 does **not** exceed
it, yet the code substitutes (`shouldSubstitute` is true and the resolved
move is `d2d4`, not the best move `e2e4`). -/
theorem substitution_at_equal_draw :
    shouldSubstitute { defaultConfig with eloRating := 2500, accuracy := 50 } (1/2) = true ∧
    ¬((1/2 : ℚ) > playBestProb { defaultConfig with eloRating := 2500, accuracy := 50 }) ∧
    applyHumanLikeInaccuracy { defaultConfig with eloRating := 2500, accuracy := 50 }
      "e2e4" ["e2e4", "d2d4"] (1/2) 0 = "d2d4" := by
  refine ⟨?_, ?_, ?_⟩
  · norm_num [shouldSubstitute, playBestProb, defaultConfig, min_def]
  · norm_num [playBestProb, defaultConfig, min_def]
  · norm_num [applyHumanLikeInaccuracy, selectSuboptimalMove, playBestProb,
      defaultConfig, List.filter, min_def]
    decide

/-- C2: evaluation of `calculateMoveDelay` at the failing input
rating = 3000 (legal per the claim's "every rating ≥ 0"), raw draw 4/5
(`randomFactor = 0.9`): the unclamped `eloFactor = 1 - 3000/2500 = -1/5`
makes the delay 50 ms, strictly below the claimed lower bound 500 ms. -/
theorem moveDelay_below_base_at_3000 :
    calculateMoveDelay { defaultConfig with eloRating := 3000 } (4/5) = 50 ∧
    (50 : ℚ) < 500 := by
  constructor
  · norm_num [calculateMoveDelay, defaultConfig]
  · norm_num

/-- C1: evaluation of `getBestMoveStart` at the failing input: from the
state left by a first pending request (handler owned by request 1), a
second `getBestMove` call with legal moves `[e2e4]` is accepted — it
starts searching instead of failing, and it mutates the state by stealing
the message handler (request 2 becomes the owner), orphaning request 1. -/
theorem second_request_not_rejected :
    (getBestMoveStart
      ((getBestMoveStart { onmessageOwner := none } 1 ["e2e4"]).2) 2 ["e2e4"]).1 =
        StartOutcome.searching ∧
    (getBestMoveStart
      ((getBestMoveStart { onmessageOwner := none } 1 ["e2e4"]).2) 2 ["e2e4"]).2 ≠
      (getBestMoveStart { onmessageOwner := none } 1 ["e2e4"]).2 ∧
    (getBestMoveStart
      ((getBestMoveStart { onmessageOwner := none } 1 ["e2e4"]).2) 2 ["e2e4"]).2.onmessageOwner =
      some 2 := by
  refine ⟨rfl, ?_, rfl⟩
  decide

/-- C8: evaluation of the message handler at the failing input: the mate
line `info depth 12 score mate 3 pv e2e4` leaves the recorded evaluation at
its stale prior value 0 (magnitude far below any mate normalization),
while a `score cp` line does update it — the regex only matches
`score cp`, so mate scores are silently dropped, never normalized. -/
theorem mate_score_not_normalized :
    handleInfoMessage "info depth 12 score mate 3 pv e2e4" 0 5 = (0, 12) ∧
    (handleInfoMessage "info depth 12 score mate 3 pv e2e4" 0 5).1.natAbs < 10000 ∧
    handleInfoMessage "info depth 12 score cp 137 pv e2e4" 0 5 = (137, 12) := by
  refine ⟨by decide, by decide, by decide⟩

end ChessEngineModel
